import Mathlib

/-!
Shallow embedding of the streaming downloader in `src/index.js` (itchio/bob).

The embedded code is the function `downloadToStream(url, out)` together with
its inner helpers (`showProgress`, `onData`) and the JavaScript number
semantics it relies on (`parseInt`, `NaN`, `Infinity`, `Math.floor`,
the loose inequality `!=`).

Modelling choices:
* JavaScript numbers appearing in the progress computation are modelled by
  `JSNum`: either `NaN`, `+Infinity`, `-Infinity`, or an exact rational.
  All values actually computed here are exact (integers, or one division),
  so the rational model matches the float64 semantics on the inputs the
  claims quantify over.
* The network is modelled as the list of responses the server produces for
  the successive requests: `downloadToStream` consumes one response per
  request (the head for the first URL, the next one after each redirect).
* A response body is the list of data chunks the network delivers, in
  order; `aborted = true` means the transport signals `aborted` after
  those chunks (mid-stream premature termination).
* The `while (state.currentDots != currentDots)` loop of `onData` is given
  an explicit fuel parameter; divergence of the JavaScript loop is
  modelled by the run returning `none` for every fuel.
* Node's event ordering is modelled by an explicit event trace: data
  chunks arrive in order, the response `close` event fires after the last
  chunk, `out.close()` is invoked by that handler, the sink's own `close`
  event fires after `close()` was called, and only then does the awaited
  promise resolve and the throughput report run.
* `https.request(url, (method GET))` refuses URLs whose scheme is not
  `https:` by throwing `ERR_INVALID_PROTOCOL` (Node `_http_client.js`
  protocol check); this is part of the library environment the source
  calls into.
-/

/-- JavaScript number as it can appear in the progress computation:
`NaN`, an infinity, or an exact (rational) value. -/
inductive JSNum where
  | nan
  | posInf
  | negInf
  | val (q : ℚ)
deriving DecidableEq, Repr

/-- JavaScript loose inequality `a != b` restricted to numbers:
`NaN` is unequal to everything (including itself); infinities compare
by identity; finite values compare as rationals. -/
def jsNeq : JSNum → JSNum → Bool
  | .nan, _ => true
  | _, .nan => true
  | .posInf, .posInf => false
  | .negInf, .negInf => false
  | .posInf, _ => true
  | .negInf, _ => true
  | .val _, .posInf => true
  | .val _, .negInf => true
  | .val a, .val b => a ≠ b

/-- JavaScript division `a / t` where the numerator is a finite value
(`doneSize` is always a nonnegative integer): division by `0` yields an
infinity (or `NaN` for `0 / 0`), division by an infinity yields `0`,
and division by `NaN` yields `NaN`. -/
def divNum (a : ℚ) : JSNum → JSNum
  | .nan => .nan
  | .posInf => .val 0
  | .negInf => .val 0
  | .val t =>
    if t = 0 then
      (if a = 0 then .nan else if 0 < a then .posInf else .negInf)
    else
      .val (a / t)

/-- JavaScript multiplication of a number by a nonnegative integer
(`state.totalDots`): `NaN` propagates, and `Infinity * 0` is `NaN`. -/
def mulNat (x : JSNum) (n : ℕ) : JSNum :=
  match x with
  | .nan => .nan
  | .posInf => if n = 0 then .nan else .posInf
  | .negInf => if n = 0 then .nan else .negInf
  | .val q => .val (q * n)

/-- JavaScript `Math.floor`: identity on `NaN` and the infinities,
floor on finite values. -/
def floorJS : JSNum → JSNum
  | .nan => .nan
  | .posInf => .posInf
  | .negInf => .negInf
  | .val q => .val ((⌊q⌋ : ℤ) : ℚ)

/-- Decimal digit value of a character, for digits `0`-`9`. -/
def digitVal (c : Char) : ℕ := c.toNat - 48

/-- JavaScript whitespace accepted by `parseInt` before the number. -/
def jsWhitespace (c : Char) : Bool :=
  c = ' ' || c = '\t' || c = '\n' || c = '\r'

/-- JavaScript `parseInt(s, 10)`: skip leading whitespace, read an
optional sign, then the longest leading run of decimal digits; the result
is `none` (for `NaN`) when no digit is read, and otherwise the signed
value of the digits (trailing garbage is ignored). -/
def parseIntJS (s : String) : Option ℤ :=
  let cs := s.data.dropWhile jsWhitespace
  let signAndRest : ℤ × List Char :=
    match cs with
    | '-' :: r => (-1, r)
    | '+' :: r => (1, r)
    | r => (1, r)
  let ds := signAndRest.2.takeWhile Char.isDigit
  if ds = [] then none
  else some (signAndRest.1 * ((ds.foldl (fun a c => a * 10 + digitVal c) 0 : ℕ) : ℤ))

/-- Numeric view of the parsed content length: `parseInt` returning `NaN`
becomes `JSNum.nan`, a parsed integer becomes a finite value. -/
def jsOfParse (s : String) : JSNum :=
  match parseIntJS s with
  | none => .nan
  | some n => .val (n : ℚ)

/-- The mutable `state` record of `downloadToStream` (lines 236-242 of
`src/index.js`): `doneSize` starts at `0`, `totalSize` is
`parseInt(res.headers["content-length"] || "", 10)`, `currentDots` starts
at `0` and `totalDots` is `100`. -/
structure TState where
  doneSize : ℕ
  totalSize : JSNum
  currentDots : JSNum
  totalDots : ℕ
deriving DecidableEq, Repr

/-- Initial transfer state built from the optional `content-length`
header value (an absent header behaves like the empty string, exactly as
`res.headers["content-length"] || ""`). -/
def initState (contentLength : Option String) : TState :=
  { doneSize := 0
    totalSize := jsOfParse (contentLength.getD "")
    currentDots := .val 0
    totalDots := 100 }

/-- The target dot count computed by `onData`:
`Math.floor((state.doneSize / state.totalSize) * state.totalDots)`,
evaluated at the updated `doneSize`. -/
def dotsTarget (st : TState) (newDone : ℕ) : JSNum :=
  floorJS (mulNat (divNum (newDone : ℚ) st.totalSize) st.totalDots)

/-- The loop `while (state.currentDots != currentDots) { state.currentDots
= currentDots; showProgress(); }`, with explicit fuel. The result is the
final `state.currentDots` together with the number of `showProgress`
renders executed; `none` means the fuel ran out before the loop exited
(for a `NaN` target the JavaScript loop never exits). -/
def dotsLoop : ℕ → JSNum → JSNum → Option (JSNum × ℕ)
  | fuel, cur, target =>
    if jsNeq cur target then
      match fuel with
      | 0 => none
      | f + 1 =>
        match dotsLoop f target target with
        | none => none
        | some (c, r) => some (c, r + 1)
    else
      some (cur, 0)

/-- One `data` event (lines 282-292): add the chunk's byte length to
`doneSize`, recompute the dot target, run the render loop, and (if the
loop exits) return the updated state and render count; the chunk is
written to the sink only after the loop exits. -/
def onData (fuel : ℕ) (st : TState) (data : List ℕ) : Option (TState × ℕ) :=
  let d := st.doneSize + data.length
  let target := dotsTarget st d
  match dotsLoop fuel st.currentDots target with
  | none => none
  | some (cur, r) => some ({ st with doneSize := d, currentDots := cur }, r)

/-- Observable events of one invocation, in the order they happen. -/
inductive Event where
  /-- One `showProgress()` render. -/
  | render
  /-- `out.write(data)` with the given chunk. -/
  | chunkWritten (c : List ℕ)
  /-- The terminal response's stream signalled end-of-stream (`close`). -/
  | resClosed
  /-- `out.close()` was invoked (by the response `close` handler). -/
  | sinkCloseCalled
  /-- The sink confirmed closure (its own `close` event fired). -/
  | sinkClosed
  /-- The awaited promise resolved successfully. -/
  | promiseResolved
  /-- The transport signalled `aborted` mid-stream. -/
  | abortSignaled
  /-- The awaited promise was rejected. -/
  | promiseRejected
  /-- The post-completion throughput report ran (lines 312-327). -/
  | reportEmitted
deriving DecidableEq, Repr

/-- Process the body chunks in order: each `data` event renders zero or
more times and then writes the chunk; a diverging render loop produces
`none` (the event loop is stuck inside `onData`, so nothing further
happens, in particular the stuck chunk is never written). -/
def runBody (fuel : ℕ) : TState → List (List ℕ) → List Event × Option TState
  | st, [] => ([], some st)
  | st, c :: cs =>
    match onData fuel st c with
    | none => ([], none)
    | some (st', r) =>
      let rest := runBody fuel st' cs
      (List.replicate r .render ++ [.chunkWritten c] ++ rest.1, rest.2)

/-- Bytes present in the sink after the given events: the concatenation
of all written chunks, in order. -/
def sinkBytes (evts : List Event) : List ℕ :=
  (evts.filterMap (fun e =>
    match e with
    | .chunkWritten c => some c
    | _ => none)).flatten

/-- One response from the network for one issued request. `location` and
`contentLength` are the raw header values (absent header = `none`);
`chunks` are the delivered body chunks in order; `aborted` means the
transport signals `aborted` after delivering `chunks`. -/
structure Response where
  location : Option String
  statusCode : ℕ
  contentLength : Option String
  chunks : List (List ℕ)
  aborted : Bool
deriving DecidableEq, Repr

/-- Truthiness of the `location` header as tested by `if (redirectURL)`:
present and nonempty. -/
def isRedirect (r : Response) : Bool :=
  match r.location with
  | some l => l ≠ ""
  | none => false

/-- Redirect target used by the recursive call (`downloadToStream(redirectURL, out)`). -/
def locOf (r : Response) : String :=
  r.location.getD ""

/-- Scheme of a URL string as Node's request parsing sees it: the text up
to and including the first colon. (Node lower-cases the protocol while
parsing; scheme letters are taken here as already lower-case, which is
how every URL in the claims is written.) -/
def schemeOf (url : String) : String :=
  ⟨url.data.takeWhile (fun c => c ≠ ':') ++ [':']⟩

/-- An HTTP request as constructed by `https.request(url, { method: "GET" })`. -/
structure HttpRequest where
  url : String
  method : String
deriving DecidableEq, Repr

/-- Node's `https.request` with `{ method: "GET" }`: builds a GET request
for the URL, except that a URL whose scheme is not `https:` is refused
with `ERR_INVALID_PROTOCOL` (the protocol check of `_http_client.js`). -/
def httpsRequest (url : String) : Except String HttpRequest :=
  if schemeOf url = "https:" then .ok { url := url, method := "GET" }
  else .error "ERR_INVALID_PROTOCOL"

/-- Errors surfaced by `downloadToStream`, following the taxonomy of the
design (the source throws `Error` objects; the payloads recorded here are
the data interpolated into their messages). -/
inductive DownloadError where
  /-- Request-level error (`req.on("error")`), e.g. the protocol check. -/
  | network (msg : String)
  /-- Non-200 terminal status: `Got HTTP (code) for (url)` (lines 231-233). -/
  | unexpectedStatus (code : ℕ) (url : String)
  /-- The transport signalled `aborted` mid-stream (lines 306-309). -/
  | aborted
deriving DecidableEq, Repr

/-- Result of one invocation: the promise resolves (`success`), rejects
(`failure`), or never settles because the render loop diverged (`hang`).
Each carries the bytes the sink contains at that point. -/
inductive Outcome where
  | success (sink : List ℕ)
  | failure (e : DownloadError) (sink : List ℕ)
  | hang (sink : List ℕ)
deriving DecidableEq, Repr

/-- Handling of a terminal (non-redirect) response (lines 231-327):
non-200 throws before the sink is ever touched; otherwise the transfer
state is initialised from `content-length`, the initial `showProgress()`
runs, the body chunks are processed, and the run ends with either the
abort rejection or the end-of-stream / sink-close / resolve / report
sequence. -/
def terminalRun (fuel : ℕ) (url : String) (r : Response) :
    List Event × Outcome :=
  if r.statusCode ≠ 200 then
    ([], .failure (.unexpectedStatus r.statusCode url) [])
  else
    let st := initState r.contentLength
    let body := runBody fuel st r.chunks
    let evts := Event.render :: body.1
    match body.2 with
    | none => (evts, .hang (sinkBytes evts))
    | some _ =>
      if r.aborted then
        (evts ++ [.abortSignaled, .promiseRejected],
         .failure .aborted (sinkBytes evts))
      else
        (evts ++ [.resClosed, .sinkCloseCalled, .sinkClosed,
                  .promiseResolved, .reportEmitted],
         .success (sinkBytes evts))

/-- One invocation of `downloadToStream(url, out)` against the list of
responses the network returns for the successive requests: the request is
issued (Node refuses non-`https:` schemes), a truthy `location` header
causes recursion on the redirect target and the remaining responses (the
redirect body is destroyed unread), and otherwise the terminal handling
runs. The result is the full event trace paired with the settled
outcome. -/
def run (fuel : ℕ) : String → List Response → List Event × Outcome
  | _, [] => ([], .failure (.network "no response") [])
  | url, r :: rest =>
    match httpsRequest url with
    | .error e => ([], .failure (.network e) [])
    | .ok _ =>
      match r.location with
      | some loc =>
        if loc ≠ "" then run fuel loc rest
        else terminalRun fuel url r
      | none => terminalRun fuel url r

/-- Outcome of `downloadToStream` (the settled value of its promise). -/
def downloadToStream (fuel : ℕ) (url : String) (responses : List Response) :
    Outcome :=
  (run fuel url responses).2

/-- Event trace of one `downloadToStream` invocation. -/
def downloadTrace (fuel : ℕ) (url : String) (responses : List Response) :
    List Event :=
  (run fuel url responses).1

/-- States after each processed chunk (the trajectory of `state` as seen
right after each `data` handler finishes); the trajectory stops early if
a render loop diverges. -/
def bodyStates (fuel : ℕ) : TState → List (List ℕ) → List TState
  | _, [] => []
  | st, c :: cs =>
    match onData fuel st c with
    | none => []
    | some (st', _) => st' :: bodyStates fuel st' cs

/-- Running totals of a list of chunk sizes starting from `acc`: the value
of `doneSize` after each chunk. -/
def runningTotals (acc : ℕ) : List ℕ → List ℕ
  | [] => []
  | s :: ss => (acc + s) :: runningTotals (acc + s) ss

/-- The glyph-writing loop of `showProgress` (lines 261-270): starting
from `units` pending sub-units, repeatedly emit a cell holding
`units % 8` sub-units (or a full `8` when at least `8` remain) until no
sub-units are pending. The fuel argument bounds the iteration count;
`units` itself always suffices because every iteration consumes at least
one sub-unit. Each emitted number is the index of the glyph drawn
(`theme.chunks[chunk]`). -/
def drawUnitsFuel : ℕ → ℕ → List ℕ
  | 0, _ => []
  | f + 1, units =>
    if 0 < units then
      let chunk := if 8 ≤ units then 8 else units % 8
      chunk :: drawUnitsFuel f (units - chunk)
    else
      []

/-- Cells emitted by the glyph loop for a given unit count. -/
def drawUnits (units : ℕ) : List ℕ :=
  drawUnitsFuel units units

/-- Full row of cells rendered between the start marker and the end
marker: the glyph cells, then `remainWidth` filler cells, where
`remainWidth` starts at `Math.ceil(state.totalDots / 8)` and is
decremented once per cell (the filler `" "` is the same glyph as
`theme.chunks[0]`, recorded as index `0`). -/
def barCells (units totalDots : ℕ) : List ℕ :=
  let g := drawUnits units
  g ++ List.replicate ((totalDots + 7) / 8 - g.length) 0

/-- Chunk lists recorded as written to the sink within an event trace. -/
def writtenChunks (evts : List Event) : List (List ℕ) :=
  evts.filterMap (fun e =>
    match e with
    | .chunkWritten c => some c
    | _ => none)

/-- Final URL after following a list of redirect responses. -/
def chainTarget (url : String) (rs : List Response) : String :=
  rs.foldl (fun _ r => locOf r) url

/-- State (lines 236-242) as initialised when the `content-length` header
parsed to the integer `T`. -/
def declaredState (T : ℤ) : TState :=
  { doneSize := 0
    totalSize := .val (T : ℚ)
    currentDots := .val 0
    totalDots := 100 }

/-- JavaScript comparison a <= b on numbers: false whenever `NaN` is
involved, and the usual order on the rest. -/
def jsLe : JSNum → JSNum → Prop
  | .nan, _ => False
  | _, .nan => False
  | .negInf, _ => True
  | .posInf, .posInf => True
  | .posInf, _ => False
  | .val _, .posInf => True
  | .val _, .negInf => False
  | .val a, .val b => a ≤ b

theorem initState_parses {s : String} {n : ℤ}
    (h : parseIntJS s = some n) : initState (some s) = declaredState n := by
  simp [initState, declaredState, jsOfParse, Option.getD, h]

theorem sinkBytes_eq (evts : List Event) :
    sinkBytes evts = (writtenChunks evts).flatten := rfl

theorem jsNeq_nan_right (cur : JSNum) : jsNeq cur .nan = true := by
  cases cur <;> rfl

theorem jsNeq_val_self (q : ℚ) : jsNeq (.val q) (.val q) = false := by
  simp [jsNeq]

/-- With a `NaN` target, the render loop never exits, whatever the fuel:
`NaN != NaN` is `true` in JavaScript. -/
theorem dotsLoop_nan (fuel : ℕ) (cur : JSNum) :
    dotsLoop fuel cur .nan = none := by
  induction fuel generalizing cur with
  | zero => rw [dotsLoop.eq_def]; simp [jsNeq_nan_right]
  | succ f ih => rw [dotsLoop.eq_def]; simp [jsNeq_nan_right, ih]

/-- With a finite target, the render loop exits after at most one
iteration and leaves `state.currentDots` equal to the target. -/
theorem dotsLoop_val (q : ℚ) (cur : JSNum) (f : ℕ) :
    ∃ r ≤ 1, dotsLoop (f + 1) cur (.val q) = some (.val q, r) := by
  by_cases h : jsNeq cur (.val q) = true
  · refine ⟨1, le_refl 1, ?_⟩
    rw [dotsLoop.eq_def]
    simp only [h, if_true]
    rw [dotsLoop.eq_def]
    simp [jsNeq_val_self]
  · have hc : cur = .val q := by
      cases cur with
      | nan => simp [jsNeq] at h
      | posInf => simp [jsNeq] at h
      | negInf => simp [jsNeq] at h
      | val a =>
        simp only [jsNeq, ne_eq, decide_eq_true_eq, Decidable.not_not] at h
        exact congrArg JSNum.val h
    refine ⟨0, Nat.zero_le 1, ?_⟩
    rw [dotsLoop.eq_def]
    simp [hc, jsNeq_val_self]

/-- With a `NaN` total size every `data` handler gets stuck in the render
loop (the chunk is never written and the event loop never advances). -/
theorem onData_nan {st : TState} (h : st.totalSize = .nan)
    (fuel : ℕ) (data : List ℕ) : onData fuel st data = none := by
  simp [onData, dotsTarget, h, divNum, mulNat, floorJS, dotsLoop_nan]

/-- With a finite nonzero total size, a `data` handler always finishes:
it advances `doneSize` by the chunk length and sets `currentDots` to the
floored dot target. -/
theorem onData_val {st : TState} {t : ℚ} (hts : st.totalSize = .val t)
    (ht : t ≠ 0) (f : ℕ) (data : List ℕ) :
    ∃ r, onData (f + 1) st data = some
      ({ st with
          doneSize := st.doneSize + data.length,
          currentDots :=
            .val ((⌊(((st.doneSize + data.length : ℕ) : ℚ) / t) * st.totalDots⌋ : ℤ) : ℚ) }, r) := by
  have htar : dotsTarget st (st.doneSize + data.length) =
      .val ((⌊(((st.doneSize + data.length : ℕ) : ℚ) / t) * st.totalDots⌋ : ℤ) : ℚ) := by
    simp [dotsTarget, hts, divNum, ht, mulNat, floorJS]
  obtain ⟨r, -, hr⟩ := dotsLoop_val
    ((⌊(((st.doneSize + data.length : ℕ) : ℚ) / t) * st.totalDots⌋ : ℤ) : ℚ)
    st.currentDots f
  refine ⟨r, ?_⟩
  simp only [onData, htar, hr]

/-- Body processing with a `NaN` total size: the run gets stuck on the
very first chunk; no event is emitted, nothing is written. -/
theorem runBody_nan {st : TState} (h : st.totalSize = .nan) (fuel : ℕ)
    (c : List ℕ) (cs : List (List ℕ)) :
    runBody fuel st (c :: cs) = ([], none) := by
  simp [runBody, onData_nan h]

theorem writtenChunks_replicate_render (r : ℕ) :
    writtenChunks (List.replicate r .render) = [] := by
  induction r with
  | zero => rfl
  | succ n ih => simp only [List.replicate_succ, writtenChunks,
      List.filterMap_cons] at ih ⊢; exact ih

theorem writtenChunks_append (a b : List Event) :
    writtenChunks (a ++ b) = writtenChunks a ++ writtenChunks b := by
  simp [writtenChunks]

/-- Body processing with a finite nonzero total size finishes, emits only
render and write events, and writes exactly the delivered chunks. -/
theorem runBody_val {t : ℚ} (ht : t ≠ 0) (f : ℕ) :
    ∀ (chunks : List (List ℕ)) (st : TState), st.totalSize = .val t →
    ∃ evts st', runBody (f + 1) st chunks = (evts, some st') ∧
      writtenChunks evts = chunks ∧
      (∀ e ∈ evts, e = .render ∨ ∃ c, e = .chunkWritten c) := by
  intro chunks
  induction chunks with
  | nil =>
    intro st _
    exact ⟨[], st, rfl, rfl, by simp⟩
  | cons c cs ih =>
    intro st hts
    obtain ⟨r, hr⟩ := onData_val hts ht f c
    obtain ⟨evts, st', heq, hwr, hkinds⟩ := ih ({ st with
        doneSize := st.doneSize + c.length,
        currentDots :=
          .val ((⌊(((st.doneSize + c.length : ℕ) : ℚ) / t) * st.totalDots⌋ : ℤ) : ℚ) }) hts
    refine ⟨List.replicate r .render ++ [.chunkWritten c] ++ evts, st', ?_, ?_, ?_⟩
    · simp only [runBody, hr, heq]
    · rw [writtenChunks_append, writtenChunks_append, writtenChunks_replicate_render, hwr]
      rfl
    · intro e he
      rcases List.mem_append.1 he with h1 | h2
      · rcases List.mem_append.1 h1 with h3 | h4
        · exact Or.inl (List.eq_of_mem_replicate h3)
        · simp only [List.mem_singleton] at h4
          exact Or.inr ⟨c, h4⟩
      · exact hkinds e h2

/-- Closed form of the per-chunk state trajectory for a finite nonzero
declared total: after the k-th chunk, `doneSize` is the running total of
the first k chunk sizes and `currentDots` is the floored dot target for
that running total. -/
theorem bodyStates_val {t : ℚ} (ht : t ≠ 0) (f : ℕ) :
    ∀ (chunks : List (List ℕ)) (st : TState), st.totalSize = .val t →
    bodyStates (f + 1) st chunks =
      (runningTotals st.doneSize (chunks.map List.length)).map (fun d =>
        { doneSize := d
          totalSize := .val t
          currentDots := .val ((⌊((d : ℚ) / t) * st.totalDots⌋ : ℤ) : ℚ)
          totalDots := st.totalDots }) := by
  intro chunks
  induction chunks with
  | nil => intro st _; rfl
  | cons c cs ih =>
    intro st hts
    obtain ⟨r, hr⟩ := onData_val hts ht f c
    have hstep := ih ({ st with
        doneSize := st.doneSize + c.length,
        currentDots :=
          .val ((⌊(((st.doneSize + c.length : ℕ) : ℚ) / t) * st.totalDots⌋ : ℤ) : ℚ) }) hts
    simp only [bodyStates, hr, hstep, List.map_cons, runningTotals]
    rw [hts]

theorem runningTotals_length (l : List ℕ) :
    ∀ acc, (runningTotals acc l).length = l.length := by
  induction l with
  | nil => intro acc; rfl
  | cons s ss ih => intro acc; simp [runningTotals, ih]

/-- The k-th running total is `acc` plus the sum of the first `k + 1`
sizes. -/
theorem runningTotals_get (l : List ℕ) :
    ∀ (acc i : ℕ) (h : i < (runningTotals acc l).length),
    (runningTotals acc l).get ⟨i, h⟩ = acc + (l.take (i + 1)).sum := by
  induction l with
  | nil => intro acc i h; simp [runningTotals] at h
  | cons s ss ih =>
    intro acc i h
    match i with
    | 0 => simp [runningTotals]
    | i + 1 =>
      have h' : i < (runningTotals (acc + s) ss).length := by
        simpa [runningTotals] using h
      have := ih (acc + s) i h'
      simp only [runningTotals, List.get_cons_succ, this, List.take_succ_cons,
        List.sum_cons]
      omega

theorem runningTotals_getLast? (l : List ℕ) (hne : l ≠ []) :
    ∀ acc, (runningTotals acc l).getLast? = some (acc + l.sum) := by
  induction l with
  | nil => exact absurd rfl hne
  | cons s ss ih =>
    intro acc
    cases ss with
    | nil => simp [runningTotals]
    | cons u us =>
      have h2 := ih (by simp) (acc + s)
      have hexp : runningTotals acc (s :: u :: us)
          = (acc + s) :: (acc + s + u) :: runningTotals (acc + s + u) us := rfl
      have hexp2 : runningTotals (acc + s) (u :: us)
          = (acc + s + u) :: runningTotals (acc + s + u) us := rfl
      rw [hexp, List.getLast?_cons_cons, ← hexp2, h2]
      simp only [Option.some.injEq, List.sum_cons]
      omega

/-- A terminal (non-redirect) response is handled by `terminalRun`,
whatever responses would have followed. -/
theorem run_terminal (fuel : ℕ) (url : String) (r : Response)
    (rest : List Response) (hurl : schemeOf url = "https:")
    (hnr : isRedirect r = false) :
    run fuel url (r :: rest) = terminalRun fuel url r := by
  cases hl : r.location with
  | none => simp [run, httpsRequest, hurl, hl]
  | some loc =>
    have hloc : loc = "" := by
      by_contra h
      simp [isRedirect, hl, h] at hnr
    subst hloc
    simp [run, httpsRequest, hurl, hl]

/-- A redirect response makes the downloader re-issue the request against
the `location` target, with the redirect body untouched. -/
theorem run_redirect_step (fuel : ℕ) (url : String) (r : Response)
    (rest : List Response) (hurl : schemeOf url = "https:")
    (hr : isRedirect r = true) :
    run fuel url (r :: rest) = run fuel (locOf r) rest := by
  cases hl : r.location with
  | none => simp [isRedirect, hl] at hr
  | some loc =>
    have hne : ¬loc = "" := by simpa [isRedirect, hl] using hr
    simp [run, httpsRequest, hurl, hl, hne, locOf]

/-- Following an arbitrary list of redirect hops: the run on the full
chain equals the run against the final URL on the remaining responses —
with no hop-count ceiling of any kind. -/
theorem run_redirects (fuel : ℕ) (rs : List Response) :
    ∀ (url : String) (rest : List Response), schemeOf url = "https:" →
    (∀ r ∈ rs, isRedirect r = true) →
    (∀ r ∈ rs, schemeOf (locOf r) = "https:") →
    run fuel url (rs ++ rest) = run fuel (chainTarget url rs) rest := by
  induction rs with
  | nil => intro url rest _ _ _; rfl
  | cons r rs ih =>
    intro url rest hurl hred hloc
    rw [List.cons_append,
      run_redirect_step fuel url r (rs ++ rest) hurl (hred r (by simp))]
    exact ih (locOf r) rest (hloc r (by simp))
      (fun x hx => hred x (by simp [hx])) (fun x hx => hloc x (by simp [hx]))

theorem chainTarget_scheme (rs : List Response) :
    ∀ url, schemeOf url = "https:" →
    (∀ r ∈ rs, schemeOf (locOf r) = "https:") →
    schemeOf (chainTarget url rs) = "https:" := by
  induction rs with
  | nil => intro url h _; exact h
  | cons r rs ih =>
    intro url h hloc
    exact ih (locOf r) (hloc r (by simp)) (fun x hx => hloc x (by simp [hx]))

/-- Non-200 terminal response: the throw happens before any sink
interaction, so the trace is empty and the outcome carries the code and
the URL of the final request. -/
theorem terminalRun_non200 (fuel : ℕ) (url : String) (r : Response)
    (h : r.statusCode ≠ 200) :
    terminalRun fuel url r
      = ([], .failure (.unexpectedStatus r.statusCode url) []) := by
  simp [terminalRun, h]

theorem writtenChunks_cons_render (evts : List Event) :
    writtenChunks (.render :: evts) = writtenChunks evts := by
  simp [writtenChunks, List.filterMap_cons]

/-- Successful terminal transfer (status 200, content length parsing to a
nonzero integer, no abort): the body events run to completion, the sink
receives exactly the delivered bytes, and the trace ends with
end-of-stream, the single close call, the close confirmation, the
resolution, and the report — in that order. -/
theorem terminalRun_success (f : ℕ) (url : String) (r : Response) {n : ℤ}
    (h200 : r.statusCode = 200)
    (hcl : parseIntJS (r.contentLength.getD "") = some n) (hn : n ≠ 0)
    (hab : r.aborted = false) :
    ∃ evts, terminalRun (f + 1) url r =
      (Event.render :: (evts ++ [.resClosed, .sinkCloseCalled, .sinkClosed,
        .promiseResolved, .reportEmitted]), .success r.chunks.flatten) ∧
      (∀ e ∈ evts, e = .render ∨ ∃ c, e = .chunkWritten c) := by
  have hnq : (n : ℚ) ≠ 0 := Int.cast_ne_zero.mpr hn
  have hts : (initState r.contentLength).totalSize = .val (n : ℚ) := by
    simp [initState, jsOfParse, hcl]
  obtain ⟨evts, st', heq, hwr, hkinds⟩ := runBody_val hnq f r.chunks _ hts
  refine ⟨evts, ?_, hkinds⟩
  have hsink : sinkBytes (Event.render :: evts) = r.chunks.flatten := by
    rw [sinkBytes_eq, writtenChunks_cons_render, hwr]
  simp [terminalRun, h200, heq, hab, hsink]

/-- Aborted terminal transfer with a well-formed content length: all
chunks delivered before the abort are in the sink, then the abort signal
rejects the promise; nothing is rolled back. -/
theorem terminalRun_abort (f : ℕ) (url : String) (r : Response) {n : ℤ}
    (h200 : r.statusCode = 200)
    (hcl : parseIntJS (r.contentLength.getD "") = some n) (hn : n ≠ 0)
    (hab : r.aborted = true) :
    ∃ evts, terminalRun (f + 1) url r =
      (Event.render :: (evts ++ [.abortSignaled, .promiseRejected]),
       .failure .aborted r.chunks.flatten) ∧
      (∀ e ∈ evts, e = .render ∨ ∃ c, e = .chunkWritten c) := by
  have hnq : (n : ℚ) ≠ 0 := Int.cast_ne_zero.mpr hn
  have hts : (initState r.contentLength).totalSize = .val (n : ℚ) := by
    simp [initState, jsOfParse, hcl]
  obtain ⟨evts, st', heq, hwr, hkinds⟩ := runBody_val hnq f r.chunks _ hts
  refine ⟨evts, ?_, hkinds⟩
  have hsink : sinkBytes (Event.render :: evts) = r.chunks.flatten := by
    rw [sinkBytes_eq, writtenChunks_cons_render, hwr]
  simp [terminalRun, h200, heq, hab, hsink]

/-- Terminal transfer whose content length does not parse (`NaN` total):
the first chunk's render loop never exits, so the run hangs with an empty
sink, for every fuel. -/
theorem terminalRun_nan (fuel : ℕ) (url : String) (r : Response)
    (h200 : r.statusCode = 200)
    (hcl : parseIntJS (r.contentLength.getD "") = none)
    (c : List ℕ) (cs : List (List ℕ)) (hch : r.chunks = c :: cs) :
    terminalRun fuel url r = ([.render], .hang []) := by
  have hts : (initState r.contentLength).totalSize = .nan := by
    simp [initState, jsOfParse, hcl]
  simp [terminalRun, h200, hch, runBody_nan hts, sinkBytes, writtenChunks]

/-- C1 counterexample: a redirect chain of one hop ending in a terminal
response with status 200 whose content-length header is absent. The claim
says the sink ends up with exactly the terminal body `[1, 2, 3]`; instead
the run hangs in the render loop with an empty sink (the hang is
fuel-independent, see the NaN render-loop theorems). -/
theorem C1_counterexample :
    downloadToStream 1 "https://a.example/"
      [⟨some "https://b.example/", 301, none, [[9, 9]], false⟩,
       ⟨none, 200, none, [[1, 2, 3]], false⟩] = .hang [] ∧
    downloadToStream 1 "https://a.example/"
      [⟨some "https://b.example/", 301, none, [[9, 9]], false⟩,
       ⟨none, 200, none, [[1, 2, 3]], false⟩] ≠ .success [1, 2, 3] := by
  decide

/-- C1 (amended): for every redirect chain of N hops (no hop-count
ceiling; redirect bodies arbitrary and never written) ending in a
terminal 200 response whose content-length parses to a nonzero integer
and whose body is delivered without abort, the bytes written to the sink
are exactly the terminal response's body chunks concatenated in order. -/
theorem C1_redirect_chain_streams_terminal_body
    (f : ℕ) (url : String) (rs : List Response) (t : Response) (n : ℤ)
    (hurl : schemeOf url = "https:")
    (hred : ∀ r ∈ rs, isRedirect r = true)
    (hloc : ∀ r ∈ rs, schemeOf (locOf r) = "https:")
    (ht : isRedirect t = false)
    (h200 : t.statusCode = 200)
    (hcl : parseIntJS (t.contentLength.getD "") = some n) (hn : n ≠ 0)
    (hab : t.aborted = false) :
    downloadToStream (f + 1) url (rs ++ [t]) = .success t.chunks.flatten := by
  unfold downloadToStream
  rw [run_redirects (f + 1) rs url [t] hurl hred hloc,
    run_terminal (f + 1) _ t [] (chainTarget_scheme rs url hurl hloc) ht]
  obtain ⟨evts, heq, -⟩ :=
    terminalRun_success f (chainTarget url rs) t h200 hcl hn hab
  rw [heq]

/-- C1 witness: two redirect hops, then a 2560-byte-style terminal body
delivered in two chunks. -/
theorem C1_witness :
    downloadToStream 1 "https://a.example/"
      [⟨some "https://b.example/", 301, none, [[7]], false⟩,
       ⟨some "https://c.example/", 302, none, [], false⟩,
       ⟨none, 200, some "3", [[1, 2], [3]], false⟩]
      = .success [1, 2, 3] :=
  C1_redirect_chain_streams_terminal_body 0 "https://a.example/"
    [⟨some "https://b.example/", 301, none, [[7]], false⟩,
     ⟨some "https://c.example/", 302, none, [], false⟩]
    ⟨none, 200, some "3", [[1, 2], [3]], false⟩ 3
    (by decide) (by decide) (by decide) (by decide) (by decide)
    (by decide) (by decide) (by decide)

/-- C3: failing input for the claim that an absent content-length is
tolerated: a terminal 200 response with no content-length header and one
delivered chunk. The total parses to NaN, the first data handler's loop
`while (state.currentDots != currentDots)` spins forever (NaN is unequal
to itself), so for every fuel the transfer never completes and the sink
stays empty — the received byte is never written. -/
theorem C3_missing_length_hangs (fuel : ℕ) :
    downloadToStream fuel "https://example.com/data"
      [⟨none, 200, none, [[42]], false⟩] = .hang [] := by
  unfold downloadToStream
  rw [run_terminal fuel _ _ [] (by decide) (by decide),
    terminalRun_nan fuel _ _ (by decide) (by decide) [42] [] rfl]

/-- C10: failing input for the claim that the per-chunk update loop
always terminates: with the content-length header absent the declared
total is NaN, and the `data` handler diverges on its very first chunk —
for every fuel the loop has not exited (and each iteration re-renders, so
renders are unbounded rather than at most one). -/
theorem C10_nan_render_loop_diverges (fuel : ℕ) :
    onData fuel (initState none) [42] = none :=
  onData_nan (by decide) fuel [42]

/-- C8: for every unit count up to the budget 100, the rendered bar is
exactly ceil(100 / 8) = 13 cells wide, every cell is one of the 9 glyphs
(sub-unit counts 0 through 8), and the sub-units across all cells sum to
the unit count. -/
theorem C8_bar_geometry (u : ℕ) (hu : u ≤ 100) :
    (barCells u 100).length = 13 ∧ (∀ c ∈ barCells u 100, c ≤ 8) ∧
      (barCells u 100).sum = u := by
  have h : ∀ v, v < 101 → ((barCells v 100).length = 13 ∧
      (∀ c ∈ barCells v 100, c ≤ 8) ∧ (barCells v 100).sum = v) := by decide
  exact h u (by omega)

/-- C8 witness: at the full budget the bar is 12 full blocks, one
half-full cell, no filler. -/
theorem C8_witness :
    (barCells 100 100).length = 13 ∧ (∀ c ∈ barCells 100 100, c ≤ 8) ∧
      (barCells 100 100).sum = 100 :=
  C8_bar_geometry 100 (by norm_num)

/-- C9 counterexample: the identical response served over `http:` versus
`https:`; the claim says the download is accepted either way, but the
`http:` URL is refused by the `https.request` protocol check before any
request is made, while the `https:` twin succeeds. -/
theorem C9_counterexample :
    downloadToStream 1 "http://example.com/"
      [⟨none, 200, some "1", [[7]], false⟩]
      = .failure (.network "ERR_INVALID_PROTOCOL") [] ∧
    downloadToStream 1 "https://example.com/"
      [⟨none, 200, some "1", [[7]], false⟩] = .success [7] := by
  constructor
  · decide
  · show downloadToStream 1 "https://example.com/"
      [⟨none, 200, some "1", [[7]], false⟩] = .success [7]
    unfold downloadToStream
    rw [run_terminal 1 "https://example.com/"
      ⟨none, 200, some "1", [[7]], false⟩ [] (by decide) (by decide)]
    obtain ⟨evts, heq, -⟩ := terminalRun_success 0 "https://example.com/"
      ⟨none, 200, some "1", [[7]], false⟩ (n := 1) (by decide) (by decide)
      (by decide) (by decide)
    rw [heq]
    rfl

/-- C9 (amended): every URL with scheme `https:` is accepted and turned
into an HTTP GET request for that URL; `http:` URLs are refused by the
protocol check of the `https` module (see the counterexample). -/
theorem C9_https_scheme_accepted_as_get (url : String)
    (h : schemeOf url = "https:") :
    httpsRequest url = .ok { url := url, method := "GET" } := by
  simp [httpsRequest, h]

/-- C9 witness: a concrete `https:` URL is accepted as a GET request. -/
theorem C9_witness :
    schemeOf "https://example.com/" = "https:" ∧
    httpsRequest "https://example.com/" =
      .ok { url := "https://example.com/", method := "GET" } :=
  ⟨by decide, C9_https_scheme_accepted_as_get "https://example.com/" (by decide)⟩

/-- C4: any terminal (non-redirect) response with a status other than 200
— at the end of an arbitrary redirect chain — rejects with the
unexpected-status error naming the status code and the URL of the final
request, and the sink is never written to or closed (the event trace is
empty and the sink holds zero bytes). -/
theorem C4_non200_fails_untouched_sink
    (fuel : ℕ) (url : String) (rs : List Response) (t : Response)
    (hurl : schemeOf url = "https:")
    (hred : ∀ r ∈ rs, isRedirect r = true)
    (hloc : ∀ r ∈ rs, schemeOf (locOf r) = "https:")
    (ht : isRedirect t = false)
    (h200 : t.statusCode ≠ 200) :
    downloadToStream fuel url (rs ++ [t])
      = .failure (.unexpectedStatus t.statusCode (chainTarget url rs)) [] ∧
    downloadTrace fuel url (rs ++ [t]) = [] := by
  have hrun : run fuel url (rs ++ [t])
      = ([], .failure (.unexpectedStatus t.statusCode (chainTarget url rs)) []) := by
    rw [run_redirects fuel rs url [t] hurl hred hloc,
      run_terminal fuel _ t [] (chainTarget_scheme rs url hurl hloc) ht,
      terminalRun_non200 fuel _ t h200]
  exact ⟨by rw [downloadToStream, hrun], by rw [downloadTrace, hrun]⟩

/-- C4 witness: one redirect hop to a 404. -/
theorem C4_witness :
    downloadToStream 1 "https://a.example/"
      [⟨some "https://b.example/", 301, none, [[9]], false⟩,
       ⟨none, 404, none, [[1]], false⟩]
      = .failure (.unexpectedStatus 404 "https://b.example/") [] ∧
    downloadTrace 1 "https://a.example/"
      [⟨some "https://b.example/", 301, none, [[9]], false⟩,
       ⟨none, 404, none, [[1]], false⟩] = [] :=
  C4_non200_fails_untouched_sink 1 "https://a.example/"
    [⟨some "https://b.example/", 301, none, [[9]], false⟩]
    ⟨none, 404, none, [[1]], false⟩
    (by decide) (by decide) (by decide) (by decide) (by decide)

/-- C6 counterexample: mid-stream abort on a terminal 200 response whose
content-length header is absent. The network delivers one chunk (which
the stuck render loop never forwards, so zero bytes are in the sink) and
then signals the abort; the claim says the operation fails with the
aborted error, but the run hangs instead (the handler never returns to
the event loop). -/
theorem C6_counterexample :
    downloadToStream 1 "https://a.example/"
      [⟨none, 200, none, [[5]], true⟩] = .hang [] ∧
    downloadToStream 1 "https://a.example/"
      [⟨none, 200, none, [[5]], true⟩] ≠ .failure .aborted [] := by
  decide

/-- C6 (amended): when the content length parses to a nonzero integer and
the transport signals a mid-stream abort after delivering its chunks, the
operation fails with the aborted error and the sink contains exactly the
bytes already forwarded — no rollback. -/
theorem C6_abort_keeps_partial_data
    (f : ℕ) (url : String) (t : Response) (n : ℤ)
    (hurl : schemeOf url = "https:")
    (ht : isRedirect t = false)
    (h200 : t.statusCode = 200)
    (hcl : parseIntJS (t.contentLength.getD "") = some n) (hn : n ≠ 0)
    (hab : t.aborted = true) :
    downloadToStream (f + 1) url [t] = .failure .aborted t.chunks.flatten := by
  unfold downloadToStream
  rw [run_terminal (f + 1) url t [] hurl ht]
  obtain ⟨evts, heq, -⟩ := terminalRun_abort f url t h200 hcl hn hab
  rw [heq]

/-- C6 witness: abort after two delivered chunks (three bytes). -/
theorem C6_witness :
    downloadToStream 1 "https://a.example/"
      [⟨none, 200, some "10", [[1, 2], [3]], true⟩]
      = .failure .aborted [1, 2, 3] :=
  C6_abort_keeps_partial_data 0 "https://a.example/"
    ⟨none, 200, some "10", [[1, 2], [3]], true⟩ 10
    (by decide) (by decide) (by decide) (by decide) (by decide) (by decide)

/-- C5: on every successful transfer (terminal 200, parsable nonzero
content length, no abort, arbitrary redirect prefix) the trace ends with
end-of-stream, exactly one `out.close()` call immediately after it, the
sink's closure confirmation, the promise resolution, and the throughput
report, in that order; everything before that point is only renders and
chunk writes, and `out.close()` is called exactly once in the whole
trace. -/
theorem C5_close_resolve_report_ordering
    (f : ℕ) (url : String) (rs : List Response) (t : Response) (n : ℤ)
    (hurl : schemeOf url = "https:")
    (hred : ∀ r ∈ rs, isRedirect r = true)
    (hloc : ∀ r ∈ rs, schemeOf (locOf r) = "https:")
    (ht : isRedirect t = false)
    (h200 : t.statusCode = 200)
    (hcl : parseIntJS (t.contentLength.getD "") = some n) (hn : n ≠ 0)
    (hab : t.aborted = false) :
    ∃ pre, downloadTrace (f + 1) url (rs ++ [t])
        = pre ++ [.resClosed, .sinkCloseCalled, .sinkClosed,
                  .promiseResolved, .reportEmitted] ∧
      (∀ e ∈ pre, e = .render ∨ ∃ c, e = .chunkWritten c) ∧
      (downloadTrace (f + 1) url (rs ++ [t])).count .sinkCloseCalled = 1 := by
  obtain ⟨evts, heq, hkinds⟩ :=
    terminalRun_success f (chainTarget url rs) t h200 hcl hn hab
  have htr : downloadTrace (f + 1) url (rs ++ [t])
      = Event.render :: (evts ++ [.resClosed, .sinkCloseCalled, .sinkClosed,
          .promiseResolved, .reportEmitted]) := by
    rw [downloadTrace, run_redirects (f + 1) rs url [t] hurl hred hloc,
      run_terminal (f + 1) _ t [] (chainTarget_scheme rs url hurl hloc) ht,
      heq]
  have h0 : (Event.render :: evts).count .sinkCloseCalled = 0 := by
    rw [List.count_eq_zero]
    intro hmem
    rcases List.mem_cons.1 hmem with h1 | h2
    · simp at h1
    · rcases hkinds _ h2 with h3 | ⟨c, h3⟩ <;> simp at h3
  have hsuf : ([Event.resClosed, .sinkCloseCalled, .sinkClosed,
      .promiseResolved, .reportEmitted]).count .sinkCloseCalled = 1 := by decide
  refine ⟨Event.render :: evts, ?_, ?_, ?_⟩
  · rw [htr]
    rfl
  · intro e he
    rcases List.mem_cons.1 he with h1 | h2
    · exact Or.inl h1
    · exact hkinds e h2
  · rw [htr, show Event.render :: (evts ++ [Event.resClosed, .sinkCloseCalled,
      .sinkClosed, .promiseResolved, .reportEmitted])
        = (Event.render :: evts) ++ [Event.resClosed, .sinkCloseCalled,
          .sinkClosed, .promiseResolved, .reportEmitted] from rfl,
      List.count_append, h0, hsuf]

/-- C5 witness: a one-response transfer with two bytes in one chunk. -/
theorem C5_witness :
    ∃ pre, downloadTrace 1 "https://a.example/"
        [⟨none, 200, some "2", [[4, 5]], false⟩]
        = pre ++ [.resClosed, .sinkCloseCalled, .sinkClosed,
                  .promiseResolved, .reportEmitted] ∧
      (∀ e ∈ pre, e = .render ∨ ∃ c, e = .chunkWritten c) ∧
      (downloadTrace 1 "https://a.example/"
        [⟨none, 200, some "2", [[4, 5]], false⟩]).count .sinkCloseCalled = 1 :=
  C5_close_resolve_report_ordering 0 "https://a.example/" []
    ⟨none, 200, some "2", [[4, 5]], false⟩ 2
    (by decide) (by decide) (by decide) (by decide) (by decide)
    (by decide) (by decide) (by decide)

/-- C2 counterexample: declared total T = 0 with no chunks (the empty
sequence of chunk sizes sums to T = 0). Cumulative bytes (0) equal T from
the start, yet the unit count is 0, not the full budget 100. -/
theorem C2_counterexample :
    parseIntJS "0" = some 0 ∧
    initState (some "0") = declaredState 0 ∧
    bodyStates 1 (initState (some "0")) [] = [] ∧
    (initState (some "0")).doneSize = 0 ∧
    (initState (some "0")).currentDots ≠ .val 100 := by
  decide

/-- C2 (amended): for every positive declared total T and every chunk
sequence whose sizes sum to T, the unit count after each chunk is
monotonically non-decreasing (under the JavaScript order) and the last
processed chunk — the one that makes cumulative bytes equal T — leaves
the unit count at the full budget 100. -/
theorem C2_progress_monotone_and_complete
    (T : ℕ) (hT : 0 < T) (chunks : List (List ℕ)) (f : ℕ)
    (hsum : (chunks.map List.length).sum = T) :
    (bodyStates (f + 1) (declaredState T) chunks).length = chunks.length ∧
    (∀ i (hi : i + 1 < (bodyStates (f + 1) (declaredState T) chunks).length),
      jsLe ((bodyStates (f + 1) (declaredState T) chunks).get
          ⟨i, Nat.lt_of_succ_lt hi⟩).currentDots
        ((bodyStates (f + 1) (declaredState T) chunks).get
          ⟨i + 1, hi⟩).currentDots) ∧
    (∃ s, (bodyStates (f + 1) (declaredState T) chunks).getLast? = some s ∧
      s.currentDots = .val 100) := by
  have hT0 : ((T : ℤ) : ℚ) ≠ 0 := by exact_mod_cast hT.ne'
  have hTpos : (0 : ℚ) < ((T : ℤ) : ℚ) := by exact_mod_cast hT
  have hbs' : bodyStates (f + 1) (declaredState T) chunks =
      (runningTotals 0 (chunks.map List.length)).map (fun d =>
        { doneSize := d
          totalSize := .val ((T : ℤ) : ℚ)
          currentDots := .val ((⌊((d : ℚ) / ((T : ℤ) : ℚ)) * ((100 : ℕ) : ℚ)⌋ : ℤ) : ℚ)
          totalDots := (100 : ℕ) }) :=
    bodyStates_val hT0 f chunks (declaredState (T : ℤ)) rfl
  refine ⟨?_, ?_, ?_⟩
  · rw [hbs', List.length_map, runningTotals_length, List.length_map]
  · intro i hi
    have hi1 : i + 1 < (runningTotals 0 (chunks.map List.length)).length := by
      rw [hbs', List.length_map] at hi
      exact hi
    have hi0 : i < (runningTotals 0 (chunks.map List.length)).length :=
      Nat.lt_of_succ_lt hi1
    have hmono : (runningTotals 0 (chunks.map List.length)).get ⟨i, hi0⟩
        ≤ (runningTotals 0 (chunks.map List.length)).get ⟨i + 1, hi1⟩ := by
      rw [runningTotals_get _ 0 i hi0, runningTotals_get _ 0 (i + 1) hi1]
      have hilen : i + 1 < (chunks.map List.length).length := by
        rw [runningTotals_length] at hi1
        exact hi1
      rw [List.sum_take_succ _ (i + 1) hilen]
      omega
    simp only [List.get_eq_getElem] at hmono ⊢
    simp only [hbs', List.getElem_map]
    simp only [jsLe]
    have hcast : (((runningTotals 0 (chunks.map List.length))[i] : ℕ) : ℚ)
        ≤ (((runningTotals 0 (chunks.map List.length))[i + 1] : ℕ) : ℚ) := by
      exact_mod_cast hmono
    exact Int.cast_le.mpr (Int.floor_mono (mul_le_mul_of_nonneg_right
      ((div_le_div_iff_of_pos_right hTpos).mpr hcast) (by positivity)))
  · have hneCh : chunks ≠ [] := by
      rintro rfl
      simp at hsum
      omega
    have hneSz : chunks.map List.length ≠ [] := by
      simpa using hneCh
    rw [hbs', List.getLast?_map, runningTotals_getLast? _ hneSz 0, hsum,
      Option.map_some']
    refine ⟨_, rfl, ?_⟩
    show JSNum.val ((⌊(((0 + T : ℕ)) : ℚ) / ((T : ℤ) : ℚ) * ((100 : ℕ) : ℚ)⌋ : ℤ) : ℚ)
      = JSNum.val 100
    refine congrArg JSNum.val ?_
    have harg : (((0 + T : ℕ)) : ℚ) / ((T : ℤ) : ℚ) * ((100 : ℕ) : ℚ) = 100 := by
      have hcast0 : (((0 + T : ℕ)) : ℚ) = ((T : ℤ) : ℚ) := by push_cast; ring
      rw [hcast0, div_self hT0, one_mul]
      norm_num
    rw [harg]
    norm_num

/-- C2 witness: total 3 delivered as chunks of 2 and 1 bytes. -/
theorem C2_witness :
    (bodyStates 1 (declaredState 3) [[1, 2], [3]]).length = 2 ∧
    (∀ i (hi : i + 1 < (bodyStates 1 (declaredState 3) [[1, 2], [3]]).length),
      jsLe ((bodyStates 1 (declaredState 3) [[1, 2], [3]]).get
          ⟨i, Nat.lt_of_succ_lt hi⟩).currentDots
        ((bodyStates 1 (declaredState 3) [[1, 2], [3]]).get
          ⟨i + 1, hi⟩).currentDots) ∧
    (∃ s, (bodyStates 1 (declaredState 3) [[1, 2], [3]]).getLast? = some s ∧
      s.currentDots = .val 100) :=
  C2_progress_monotone_and_complete 3 (by norm_num) [[1, 2], [3]] 0 (by decide)

/-- C7 counterexample: declared total 10, one received chunk of 11 bytes
(sizes sum to more than the declared total). `doneSize` is incremented
unconditionally, so cumulative bytes reach 11 and exceed the declared
total 10 — the claimed cap does not hold for over-delivering sequences. -/
theorem C7_counterexample :
    parseIntJS "10" = some 10 ∧
    initState (some "10") = declaredState 10 ∧
    (bodyStates 1 (declaredState 10) [List.replicate 11 0]).map TState.doneSize
      = [11] ∧
    ¬(11 ≤ 10) := by
  refine ⟨by decide, by decide, ?_, by omega⟩
  have h := bodyStates_val (t := ((10 : ℤ) : ℚ)) (by norm_num) 0
    [List.replicate 11 0] (declaredState 10) rfl
  rw [h]
  rfl

/-- C7 (amended): with a known positive declared total, cumulative bytes
received never decrease from one chunk to the next; and whenever the
received sizes sum to at most the declared total, cumulative bytes never
exceed it. -/
theorem C7_doneSize_monotone_and_bounded
    (T : ℕ) (hT : 0 < T) (chunks : List (List ℕ)) (f : ℕ) :
    (∀ i (hi : i + 1 < (bodyStates (f + 1) (declaredState T) chunks).length),
      ((bodyStates (f + 1) (declaredState T) chunks).get
          ⟨i, Nat.lt_of_succ_lt hi⟩).doneSize
        ≤ ((bodyStates (f + 1) (declaredState T) chunks).get
          ⟨i + 1, hi⟩).doneSize) ∧
    ((chunks.map List.length).sum ≤ T →
      ∀ s ∈ bodyStates (f + 1) (declaredState T) chunks, s.doneSize ≤ T) := by
  have hT0 : ((T : ℤ) : ℚ) ≠ 0 := by exact_mod_cast hT.ne'
  have hbs' : bodyStates (f + 1) (declaredState T) chunks =
      (runningTotals 0 (chunks.map List.length)).map (fun d =>
        { doneSize := d
          totalSize := .val ((T : ℤ) : ℚ)
          currentDots := .val ((⌊((d : ℚ) / ((T : ℤ) : ℚ)) * ((100 : ℕ) : ℚ)⌋ : ℤ) : ℚ)
          totalDots := (100 : ℕ) }) :=
    bodyStates_val hT0 f chunks (declaredState (T : ℤ)) rfl
  constructor
  · intro i hi
    have hi1 : i + 1 < (runningTotals 0 (chunks.map List.length)).length := by
      rw [hbs', List.length_map] at hi
      exact hi
    have hi0 : i < (runningTotals 0 (chunks.map List.length)).length :=
      Nat.lt_of_succ_lt hi1
    simp only [List.get_eq_getElem]
    simp only [hbs', List.getElem_map]
    have hg0 := runningTotals_get (chunks.map List.length) 0 i hi0
    have hg1 := runningTotals_get (chunks.map List.length) 0 (i + 1) hi1
    simp only [List.get_eq_getElem] at hg0 hg1
    rw [hg0, hg1]
    have hilen : i + 1 < (chunks.map List.length).length := by
      rw [runningTotals_length] at hi1
      exact hi1
    rw [List.sum_take_succ _ (i + 1) hilen]
    omega
  · intro hle s hs
    rw [hbs'] at hs
    obtain ⟨d, hd, rfl⟩ := List.mem_map.1 hs
    show d ≤ T
    obtain ⟨⟨k, hk⟩, hget⟩ := List.mem_iff_get.1 hd
    rw [runningTotals_get _ 0 k hk] at hget
    have htake : ((chunks.map List.length).take (k + 1)).sum
        ≤ (chunks.map List.length).sum := by
      conv_rhs => rw [← List.take_append_drop (k + 1) (chunks.map List.length)]
      rw [List.sum_append]
      omega
    omega

/-- C7 witness: total 10 declared, chunks of 2 and 1 bytes received. -/
theorem C7_witness :
    (∀ i (hi : i + 1 < (bodyStates 1 (declaredState 10) [[1, 2], [3]]).length),
      ((bodyStates 1 (declaredState 10) [[1, 2], [3]]).get
          ⟨i, Nat.lt_of_succ_lt hi⟩).doneSize
        ≤ ((bodyStates 1 (declaredState 10) [[1, 2], [3]]).get
          ⟨i + 1, hi⟩).doneSize) ∧
    (([[1, 2], [3]].map List.length).sum ≤ 10 →
      ∀ s ∈ bodyStates 1 (declaredState 10) [[1, 2], [3]], s.doneSize ≤ 10) :=
  C7_doneSize_monotone_and_bounded 10 (by norm_num) [[1, 2], [3]] 0
